import Mathlib

/-!
Verification of the dependency- and cross-reference-tracking core of the
`sphinx-prolog` extension package (`sphinx_prolog/swish.py` and
`sphinx_prolog/solex.py`).

The Sphinx environment attributes `sl_has_swish`, `sl_swish_inherited`,
`sl_swish_code` and `sl_swish_query` are modelled as explicit state:
Python dictionaries become association lists (`List (String × _)`),
Python sets become `Finset String`, file-modification timestamps become
`Nat`, and the file system becomes a function `String → Option Nat`
(`none` models a missing file, `some t` a file whose `os.path.getmtime`
is `t`).  Raised exceptions become error values; functions that mutate
state before raising return the mutated state alongside the error.
An absent environment attribute behaves exactly like an empty
dictionary/set in every modelled operation, so attribute presence is not
modelled separately.
-/

namespace SphinxProlog

/-! ## Association lists modelling Python dictionaries -/

/-- Dictionary lookup: first value bound to key `k`, as in `d[k]` / `k in d`. -/
def lookupA {α : Type} (k : String) : List (String × α) → Option α
  | [] => none
  | (k', v) :: rest => if k = k' then some v else lookupA k rest

/-- Dictionary update `d[k] = v`: replace the binding of `k` if present,
otherwise append a fresh binding (Python dicts keep insertion order). -/
def insertA {α : Type} (k : String) (v : α) : List (String × α) → List (String × α)
  | [] => [(k, v)]
  | (k', v') :: rest => if k' = k then (k, v) :: rest else (k', v') :: insertA k v rest

/-- A well-formed dictionary binds every key at most once. -/
def NodupKeys {α : Type} (l : List (String × α)) : Prop :=
  (l.map Prod.fst).Nodup

instance {α : Type} (l : List (String × α)) : Decidable (NodupKeys l) :=
  inferInstanceAs (Decidable (List.Nodup _))

theorem lookupA_insertA {α : Type} (k k' : String) (v : α) (l : List (String × α)) :
    lookupA k (insertA k' v l) = if k = k' then some v else lookupA k l := by
  induction l with
  | nil => simp [insertA, lookupA]
  | cons hd tl ih =>
    obtain ⟨k₀, v₀⟩ := hd
    by_cases h₀ : k₀ = k'
    · subst h₀
      by_cases h : k = k₀ <;> simp [insertA, lookupA, h]
    · by_cases h : k = k₀
      · subst h
        simp [insertA, lookupA, h₀, Ne.symm h₀]
      · simp [insertA, lookupA, h₀, h, ih]

theorem lookupA_eq_none_of_not_mem {α : Type} (k : String) (l : List (String × α))
    (h : k ∉ l.map Prod.fst) : lookupA k l = none := by
  induction l with
  | nil => rfl
  | cons hd tl ih =>
    simp only [List.map_cons, List.mem_cons] at h
    push_neg at h
    simp [lookupA, h.1, ih h.2]

/-! ## Strings: character-level models of the Python `str` operations used -/

/-- Python `s.startswith(p)`, on the character sequences of the strings. -/
def strStartsWith (s p : String) : Bool :=
  p.data.isPrefixOf s.data

/-- Python `s.endswith(p)`, on the character sequences of the strings. -/
def strEndsWith (s p : String) : Bool :=
  p.data.isSuffixOf s.data

/-- Python character slice `s[n:]`. -/
def pySlice (s : String) (n : Nat) : String :=
  ⟨s.data.drop n⟩

/-- Python `s.strip()`: remove leading and trailing whitespace. -/
def pyStrip (s : String) : String :=
  ⟨((s.data.dropWhile Char.isWhitespace).reverse.dropWhile Char.isWhitespace).reverse⟩

/-- Accumulator loop behind `pySplitSpace`; keeps empty pieces, as
Python `split` with an explicit separator does. -/
def splitSpaceAux : List Char → List Char → List (List Char)
  | [], cur => [cur.reverse]
  | c :: rest, cur =>
    if c = ' ' then cur.reverse :: splitSpaceAux rest []
    else splitSpaceAux rest (c :: cur)

/-- Python `s.split(' ')`. -/
def pySplitSpace (s : String) : List String :=
  (splitSpaceAux s.data []).map (fun cs => ⟨cs⟩)

theorem strStartsWith_append (p r : String) : strStartsWith (p ++ r) p = true := by
  simp only [strStartsWith, String.data_append]
  exact List.isPrefixOf_iff_prefix.mpr ⟨r.data, rfl⟩

theorem pySlice_append (p r : String) (h : p.data.length = n) : pySlice (p ++ r) n = r := by
  apply String.ext
  simp [pySlice, String.data_append, ← h, List.drop_left]

/-! ## Errors raised by the tracked operations

Each constructor stands for one `raise`/`assert` site of the source and
carries exactly the values interpolated into that message. -/

inductive SwishError : Type where
  /-- A failing Python `assert` statement (`AssertionError`). -/
  | assertionError : SwishError
  /-- An `os.path.getmtime` call on a path that does not exist (`OSError`). -/
  | osError (path : String) : SwishError
  /-- RuntimeError of `SWISH.memorise_code` and `merge_swish_detect`:
  a code file signature has changed during the runtime. -/
  | signatureChanged : SwishError
  /-- RuntimeError of `SWISH.memorise_code`: a second document claims the
  same code block as its main code block. -/
  | mainDocConflict (codeId mainDoc docname : String) : SwishError
  /-- RuntimeError of `merge_swish_detect`: both partial registries record
  a main document for the same code id. -/
  | mergeMainConflict (otherMain envMain codeId : String) : SwishError
  /-- RuntimeError of `check_inheritance_correctness`: an inherited swish id
  does not exist. -/
  | inheritNotFound (iid : String) : SwishError
  /-- RuntimeError of `check_inheritance_correctness`: the `sl_swish_query`
  attribute is absent while a query id is referenced. -/
  | queryEnvMissing (queryId : String) : SwishError
  /-- RuntimeError of `check_inheritance_correctness`: a referenced swish
  query id does not exist. -/
  | queryRefNotFound (iid : String) : SwishError
  /-- RuntimeError of `swish_q` and `SWISHq.run`: a swish query label is
  duplicated. -/
  | queryDuplicate (blockId : String) : SwishError
  /-- RuntimeError of `merge_swish_query`: multiple documents have a swish
  query with the same id. -/
  | mergeQueryDuplicate (key : String) : SwishError
deriving DecidableEq, Repr

/-- Report text of each error, following the source format strings
(`'...{}...'.format(args)` becomes string concatenation). -/
def SwishError.message : SwishError → String
  | .assertionError => "AssertionError"
  | .osError path => "No such file or directory: " ++ path
  | .signatureChanged => "A code file signature has changed during the runtime."
  | .mainDocConflict codeId mainDoc docname =>
      "Only one code block can be created from each source file. The code id "
        ++ codeId ++ " is used by " ++ mainDoc ++ " and cannot be used by "
        ++ docname ++ "."
  | .mergeMainConflict otherMain envMain codeId =>
      "Two documents (" ++ otherMain ++ " and " ++ envMain
        ++ ") are using the same code file as a main source. The code id "
        ++ codeId ++ "."
  | .inheritNotFound iid =>
      "The inherited *" ++ iid ++ "* swish id does not exist."
  | .queryEnvMissing queryId =>
      "A swish query box with *" ++ queryId ++ "* id has not been found."
  | .queryRefNotFound iid =>
      "The referenced swish query id *" ++ iid ++ "* does not exist."
  | .queryDuplicate blockId =>
      "The " ++ blockId ++ " swish query label is duplicated."
  | .mergeQueryDuplicate _ =>
      "Multiple documents have a swish query with the same id."

instance {ε α : Type} [DecidableEq ε] [DecidableEq α] : DecidableEq (Except ε α) :=
  fun x y =>
    match x, y with
    | .error a, .error b =>
      match decEq a b with
      | isTrue h => isTrue (congrArg Except.error h)
      | isFalse h => isFalse (fun hc => h (Except.error.inj hc))
    | .error _, .ok _ => isFalse (fun hc => Except.noConfusion hc)
    | .ok _, .error _ => isFalse (fun hc => Except.noConfusion hc)
    | .ok a, .ok b =>
      match decEq a b with
      | isTrue h => isTrue (congrArg Except.ok h)
      | isFalse h => isFalse (fun hc => h (Except.ok.inj hc))

/-! ## The Code Registry (`sl_swish_code`) -/

/-- One value of the `sl_swish_code` dictionary, as documented in
`SWISH.memorise_code`: referencing documents, owning document,
source-file path and last-modified timestamp. -/
@[ext]
structure CodeRecord : Type where
  docs : Finset String
  main_doc : Option String
  path : Option String
  signature : Option Nat
deriving DecidableEq

/-- Shared tail of the already-registered branch of `SWISH.memorise_code`:
extend the docs set, then settle the main-code-block claim. -/
def memoriseKnown (docname code_filename_id : String) (is_main_codeblock : Bool)
    (registry : List (String × CodeRecord)) (record : CodeRecord) :
    Option SwishError × List (String × CodeRecord) :=
  let record₁ := { record with docs := insert docname record.docs }
  if is_main_codeblock then
    match record.main_doc with
    | none =>
      (none, insertA code_filename_id { record₁ with main_doc := some docname } registry)
    | some mainDoc =>
      (some (.mainDocConflict code_filename_id mainDoc docname),
       insertA code_filename_id record₁ registry)
  else
    (none, insertA code_filename_id record₁ registry)

/-- Embedding of `SWISH.memorise_code` (swish.py lines 729-797).
Registers `code_filename_id` for document `docname` in the registry,
verifying the recorded file signature against the file system `fs` when
the id is already known.  Returns the error raised (if any) together
with the registry as left by the call: the source mutates the
environment in place, so the docs set is already extended when the
main-code-block conflict is raised, while the signature check fires
before any mutation. -/
def memorise_code (fs : String → Option Nat) (docname : String)
    (code_filename_id : String) (path_localised : Option String)
    (is_main_codeblock : Bool) (registry : List (String × CodeRecord)) :
    Option SwishError × List (String × CodeRecord) :=
  match lookupA code_filename_id registry with
  | some record =>
    match path_localised with
    | none =>
      if record.path ≠ none ∨ record.signature ≠ none then
        (some .assertionError, registry)
      else
        memoriseKnown docname code_filename_id is_main_codeblock registry record
    | some p =>
      match fs p with
      | none => (some (.osError p), registry)
      | some t =>
        if (some t : Option Nat) ≠ record.signature then
          (some .signatureChanged, registry)
        else
          memoriseKnown docname code_filename_id is_main_codeblock registry record
  | none =>
    match path_localised with
    | none =>
      (none, insertA code_filename_id
        { docs := {docname},
          main_doc := if is_main_codeblock then some docname else none,
          path := none, signature := none } registry)
    | some p =>
      match fs p with
      | none => (some (.osError p), registry)
      | some t =>
        (none, insertA code_filename_id
          { docs := {docname},
            main_doc := if is_main_codeblock then some docname else none,
            path := some p, signature := some t } registry)

/-! ## The full tracked state of one build session -/

/-- The four Sphinx-environment attributes maintained by the extension:
documents containing swish boxes, the inheritance graph, the Code
Registry and the Query Registry. -/
structure SwishEnv : Type where
  sl_has_swish : Finset String
  sl_swish_inherited : List (String × Finset String)
  sl_swish_code : List (String × CodeRecord)
  sl_swish_query : List (String × String)
deriving DecidableEq

/-- Key-uniqueness of every dictionary of a `SwishEnv`. -/
def SwishEnv.WellKeyed (e : SwishEnv) : Prop :=
  NodupKeys e.sl_swish_inherited ∧ NodupKeys e.sl_swish_code ∧ NodupKeys e.sl_swish_query

/-! ## Purging a document (`purge_swish_detect`, `purge_swish_query`) -/

/-- The `sl_swish_inherited` part of `purge_swish_detect` (swish.py lines
817-830): drop `docname` from each document set, deleting entries whose
set held only `docname`. -/
def purge_inherited (docname : String) : List (String × Finset String) → List (String × Finset String)
  | [] => []
  | (k, s) :: rest =>
    if docname ∈ s ∧ s.card = 1 then purge_inherited docname rest
    else if docname ∈ s then (k, s.erase docname) :: purge_inherited docname rest
    else (k, s) :: purge_inherited docname rest

/-- The per-record updates of the `sl_swish_code` part of
`purge_swish_detect` (swish.py lines 832-849): drop `docname` from the
docs set and clear `main_doc` where it names `docname`. -/
def purgeRecord (docname : String) (record : CodeRecord) : CodeRecord :=
  let record₁ :=
    if docname ∈ record.docs then { record with docs := record.docs.erase docname }
    else record
  if record₁.main_doc = some docname then { record₁ with main_doc := none }
  else record₁

/-- The record deletion condition of `purge_swish_detect`: the purged
document was the only one in the docs set. -/
def purgeDeletes (docname : String) (record : CodeRecord) : Prop :=
  docname ∈ record.docs ∧ record.docs.card = 1

instance (docname : String) (record : CodeRecord) : Decidable (purgeDeletes docname record) :=
  inferInstanceAs (Decidable (_ ∧ _))

/-- The traversal of `purge_swish_detect` over `sl_swish_code`. -/
def purge_code (docname : String) : List (String × CodeRecord) → List (String × CodeRecord)
  | [] => []
  | (k, record) :: rest =>
    if purgeDeletes docname record then purge_code docname rest
    else (k, purgeRecord docname record) :: purge_code docname rest

/-- Embedding of `purge_swish_query` (swish.py lines 1376-1394): delete
every query id owned by `docname`. -/
def purge_query (docname : String) (l : List (String × String)) : List (String × String) :=
  l.filter (fun kv => kv.2 ≠ docname)

/-- Embedding of `purge_swish_detect` and `purge_swish_query` together:
removes every contribution of `docname` from the tracked state. -/
def purge_all (docname : String) (env : SwishEnv) : SwishEnv :=
  { sl_has_swish := env.sl_has_swish.erase docname,
    sl_swish_inherited := purge_inherited docname env.sl_swish_inherited,
    sl_swish_code := purge_code docname env.sl_swish_code,
    sl_swish_query := purge_query docname env.sl_swish_query }

/-! ## Merging partial registries (`merge_swish_detect`, `merge_swish_query`) -/

/-- Generic form of the merge loops `for key, val in other.items(): ...`:
keys new to `env` are copied over, keys present in both are combined by
`combine`, and a combine failure aborts the merge as the raised
exception does. -/
def mergeDict {α : Type} (combine : String → α → α → Except SwishError α)
    (env : List (String × α)) : List (String × α) → Except SwishError (List (String × α))
  | [] => .ok env
  | (k, v) :: rest =>
    match lookupA k env with
    | none => mergeDict combine (insertA k v env) rest
    | some x =>
      match combine k x v with
      | .error e => .error e
      | .ok z => mergeDict combine (insertA k z env) rest

/-- Per-key combination of `merge_swish_detect` for `sl_swish_code`
(swish.py lines 879-903): signature and path must agree, docs sets are
unioned, and a main document may be recorded on at most one side. -/
def combineCodeRecord (key : String) (envRec otherRec : CodeRecord) :
    Except SwishError CodeRecord :=
  if envRec.signature ≠ otherRec.signature ∨ envRec.path ≠ otherRec.path then
    .error .signatureChanged
  else
    let merged := { envRec with docs := envRec.docs ∪ otherRec.docs }
    match otherRec.main_doc with
    | none => .ok merged
    | some m =>
      match envRec.main_doc with
      | none => .ok { merged with main_doc := some m }
      | some m' => .error (.mergeMainConflict m m' key)

/-- Embedding of `merge_swish_detect` (swish.py lines 852-907): unions
`sl_has_swish`, unions the inheritance document sets per key, and merges
the Code Registry through `combineCodeRecord`. -/
def merge_swish_detect (env other : SwishEnv) : Except SwishError SwishEnv :=
  match mergeDict (fun _ s t => .ok (s ∪ t)) env.sl_swish_inherited other.sl_swish_inherited with
  | .error e => .error e
  | .ok inherited =>
    match mergeDict combineCodeRecord env.sl_swish_code other.sl_swish_code with
    | .error e => .error e
    | .ok code =>
      .ok { env with
              sl_has_swish := env.sl_has_swish ∪ other.sl_has_swish,
              sl_swish_inherited := inherited,
              sl_swish_code := code }

/-- Embedding of `merge_swish_query` (swish.py lines 1397-1414): copies
the other Query Registry over, failing on any key present in both. -/
def merge_swish_query (env other : SwishEnv) : Except SwishError SwishEnv :=
  match mergeDict (fun k _ _ => .error (.mergeQueryDuplicate k))
          env.sl_swish_query other.sl_swish_query with
  | .error e => .error e
  | .ok query => .ok { env with sl_swish_query := query }

/-- Both `env-merge-info` hooks in the order Sphinx registers them. -/
def merge_all (env other : SwishEnv) : Except SwishError SwishEnv :=
  match merge_swish_detect env other with
  | .error e => .error e
  | .ok env₁ => merge_swish_query env₁ other

/-! ## Staleness detection (`analyse_swish_code`) -/

/-- Staleness of one Code Registry record against the file system, as
branched on by `analyse_swish_code`: a file-backed record is stale when
its file is gone or its current modification time differs from the
recorded signature; an inline record (no path) is never stale. -/
def isStale (fs : String → Option Nat) (record : CodeRecord) : Bool :=
  match record.path with
  | none => false
  | some p =>
    match fs p with
    | none => true
    | some t => decide ((some t : Option Nat) ≠ record.signature)

/-- The accumulation loop of `analyse_swish_code` (swish.py lines
952-967) over the registry values: collect the docs sets of stale
records; a pathless record with a recorded signature fails the source
`assert`. -/
def analyseLoop (fs : String → Option Nat) (acc : Finset String) :
    List CodeRecord → Except SwishError (Finset String)
  | [] => .ok acc
  | record :: rest =>
    match record.path with
    | some p =>
      match fs p with
      | some t =>
        if (some t : Option Nat) ≠ record.signature then
          analyseLoop fs (acc ∪ record.docs) rest
        else
          analyseLoop fs acc rest
      | none => analyseLoop fs (acc ∪ record.docs) rest
    | none =>
      if record.signature = none then analyseLoop fs acc rest
      else .error .assertionError

/-- Embedding of `analyse_swish_code` (swish.py lines 940-973): the
documents referencing stale code files, minus those already queued. -/
def analyse_swish_code (fs : String → Option Nat) (registry : List (String × CodeRecord))
    (added changed removed : Finset String) : Except SwishError (Finset String) :=
  match analyseLoop fs ∅ (registry.map Prod.snd) with
  | .error e => .error e
  | .ok changed_code_files => .ok (changed_code_files \ (removed ∪ changed ∪ added))

/-! ## Resolution-phase reference checking (`check_inheritance_correctness`) -/

/-- The reference-bearing attributes of one `swish_code` doctree node:
the raw space-separated `inherit_id` and `query_id` option strings
(`none` models an absent attribute, read back as `''`). -/
structure SwishCodeNode : Type where
  inherit_id : Option String
  query_id : Option String
deriving DecidableEq

/-- The id-list traversal `for iid_ in s.strip().split(' ')` with its
`iid = iid_.strip(); if not iid: continue` filtering. -/
def splitIds (s : String) : List String :=
  ((pySplitSpace (pyStrip s)).map pyStrip).filter (fun piece => piece ≠ "")

/-- The inner loop of `check_inheritance_correctness` over inherited ids:
fail on the first id absent from the Code Registry. -/
def checkInheritIds (codeReg : List (String × CodeRecord)) :
    List String → Except SwishError Unit
  | [] => .ok ()
  | iid :: rest =>
    match lookupA iid codeReg with
    | none => .error (.inheritNotFound iid)
    | some _ => checkInheritIds codeReg rest

/-- The inner loop of `check_inheritance_correctness` over query ids:
fail on the first id absent from the Query Registry. -/
def checkQueryIds (queryReg : List (String × String)) :
    List String → Except SwishError Unit
  | [] => .ok ()
  | iid :: rest =>
    match lookupA iid queryReg with
    | none => .error (.queryRefNotFound iid)
    | some _ => checkQueryIds queryReg rest

/-- The per-node body of `check_inheritance_correctness`: inherited ids
are checked against the Code Registry, then query ids against the Query
Registry (whose absence — `queryReg = none` — is itself an error when a
query id is referenced). -/
def checkNode (codeReg : List (String × CodeRecord))
    (queryReg : Option (List (String × String))) (node : SwishCodeNode) :
    Except SwishError Unit :=
  let inh := node.inherit_id.getD ""
  match (if inh ≠ "" then checkInheritIds codeReg (splitIds inh) else .ok ()) with
  | .error e => .error e
  | .ok () =>
    let q := node.query_id.getD ""
    if q ≠ "" then
      match queryReg with
      | none => .error (.queryEnvMissing q)
      | some qr => checkQueryIds qr (splitIds q)
    else .ok ()

/-- Embedding of `check_inheritance_correctness` (swish.py lines
976-1016): traverse the `swish_code` nodes of a document, validating
every `inherit_id` and `query_id` reference.  The `docname` of the
document being resolved is passed by Sphinx but never used by the
source. -/
def check_inheritance_correctness (codeReg : List (String × CodeRecord))
    (queryReg : Option (List (String × String))) (docname : String) :
    List SwishCodeNode → Except SwishError Unit
  | [] => .ok ()
  | node :: rest =>
    match checkNode codeReg queryReg node with
    | .error e => .error e
    | .ok () => check_inheritance_correctness codeReg queryReg docname rest

/-! ## Query declaration (`swish_q`, `SWISHq.run`) -/

/-- The shared Query-Registry declaration step of the `swish-query` role
(`swish_q`, swish.py lines 1222-1237) and directive (`SWISHq.run`,
swish.py lines 1301-1317): the label must carry the `swishq:` prefix and
no `.pl` extension, and an id already present in `sl_swish_query` is a
fatal duplicate whatever document owns it. -/
def declare_swish_query (docname block_id : String)
    (queryReg : List (String × String)) : Except SwishError (List (String × String)) :=
  if strStartsWith block_id "swishq:" then
    if strEndsWith block_id ".pl" then .error .assertionError
    else
      match lookupA block_id queryReg with
      | some _ => .error (.queryDuplicate block_id)
      | none => .ok (insertA block_id docname queryReg)
  else .error .assertionError

/-! ## Solution-title numbering (`solex.py`) -/

/-- The external collaborators read by the solex title writers: the
`std` domain label table (label to source document), the global
`toc_fignumbers` table (document, category, node id to figure number),
the current builder `fignumbers` slice (category, node id to figure
number), the `numfig_format` configuration and the docutils `make_id`
normalisation. -/
structure TitleEnv : Type where
  labels : String → Option String
  toc_fignumbers : String → String → String → Option (List Nat)
  fignumbers : String → String → Option (List Nat)
  numfig_format : String → Option String
  make_id : String → String

/-- The fields of a solution node (`node.parent` of a `solution_title`)
read by `source_exercise_target` and `alternative_visit_title`. -/
structure SolutionNodeData : Type where
  ids : List String
  names : List String
  exercise_attr : Option String
deriving DecidableEq

/-- Embedding of `source_exercise_target` (solex.py lines 95-129):
derive the exercise id from the solution id (`sol-` to `ex-`), check it
against `make_id` of the stored exercise label, and look the exercise
up globally, returning its source document, id and figure number.
Failing source `assert` statements and missing-key accesses are the
`assertionError` outcomes. -/
def source_exercise_target (env : TitleEnv) (figtype : String)
    (parent : SolutionNodeData) : Except SwishError (String × String × List Nat) :=
  if figtype ≠ "solution" then .error .assertionError
  else
    match parent.ids with
    | [] => .error .assertionError
    | fig_id :: _ =>
      match parent.exercise_attr with
      | none => .error .assertionError
      | some exercise_label =>
        match parent.names with
        | [nm] =>
          if strStartsWith nm "sol:" then
            if strStartsWith fig_id "sol-" then
              let exercise_id := "ex-" ++ pySlice fig_id 4
              if exercise_id = env.make_id exercise_label then
                match env.labels exercise_label with
                | none => .error .assertionError
                | some exercise_source_docname =>
                  match env.toc_fignumbers exercise_source_docname "exercise" exercise_id with
                  | none => .error .assertionError
                  | some fignumber => .ok (exercise_source_docname, exercise_id, fignumber)
              else .error .assertionError
            else .error .assertionError
          else .error .assertionError
        | _ => .error .assertionError

/-- Splitting a character sequence at each occurrence of `%s`. -/
def splitPercentS : List Char → List Char → List (List Char)
  | [], cur => [cur.reverse]
  | '%' :: 's' :: rest, cur => cur.reverse :: splitPercentS rest []
  | c :: rest, cur => splitPercentS rest (c :: cur)

/-- Python string interpolation `fmt % s` for a format string holding a
single `%s` placeholder. -/
def pyFormatS (fmt s : String) : String :=
  String.intercalate s ((splitPercentS fmt.data []).map (fun cs => ⟨cs⟩))

/-- Embedding of `alternative_visit_title` (solex.py lines 168-213): the
caption fragments appended to the HTML body.  For a solution the
displayed number is fetched through `source_exercise_target`; the
node's own entry in `fignumbers` is only asserted to exist. -/
def alternative_visit_title (env : TitleEnv) (figtype : Option String)
    (parent : SolutionNodeData) : Except SwishError (List String) :=
  match figtype with
  | none => .error .assertionError
  | some figtype =>
    if figtype = "exercise" ∨ figtype = "solution" then
      match parent.ids with
      | [] => .error .assertionError
      | fig_id :: _ =>
        match env.fignumbers figtype fig_id with
        | none => .error .assertionError
        | some own_number =>
          match
            (if figtype = "solution" then
              match source_exercise_target env figtype parent with
              | .error e => .error e
              | .ok t => .ok t.2.2
            else .ok own_number : Except SwishError (List Nat)) with
          | .error e => .error e
          | .ok fig_number =>
            let fig_number_str := String.intercalate "." (fig_number.map toString)
            match env.numfig_format figtype with
            | none => .error .assertionError
            | some fmt =>
              .ok ["<span class=\"caption-number\">",
                   pyFormatS fmt fig_number_str ++ " ",
                   "</span>"]
    else .error .assertionError

/-- Modelled from the spec: figure-number assignment for enumerable
nodes is performed by the host documentation engine, which is not part
of this repository.  Per the spec, numbering is assigned by document
order within each labeled-entity category: the node at position `i` of
the category's document-order id list receives number `i + 1`. -/
def docOrderFignumber (idsInDocOrder : List String) (fig_id : String) : Option (List Nat) :=
  (idsInDocOrder.indexOf? fig_id).map (fun i => [i + 1])

/-! ## Claim C2: changed file signature between two registrations -/

/-- Claim C2: if a file-backed fragment id is registered twice within
one build session and the modification time observed at the second
`memorise_code` call differs from the timestamp stored at the first,
the second call fails with the signature-changed integrity error and
leaves the registry — in particular the stored fingerprint — untouched. -/
theorem memorise_code_integrity_on_changed_signature
    (fs₁ fs₂ : String → Option Nat) (d₁ d₂ id p : String) (t₁ t₂ : Nat)
    (b₁ b₂ : Bool) (reg₀ : List (String × CodeRecord))
    (h0 : lookupA id reg₀ = none) (hfs₁ : fs₁ p = some t₁) (hfs₂ : fs₂ p = some t₂)
    (hne : t₂ ≠ t₁) :
    (memorise_code fs₁ d₁ id (some p) b₁ reg₀).1 = none ∧
    memorise_code fs₂ d₂ id (some p) b₂ (memorise_code fs₁ d₁ id (some p) b₁ reg₀).2
      = (some .signatureChanged, (memorise_code fs₁ d₁ id (some p) b₁ reg₀).2) := by
  have h₁ : memorise_code fs₁ d₁ id (some p) b₁ reg₀
      = (none, insertA id
          ⟨{d₁}, if b₁ then some d₁ else none, some p, some t₁⟩ reg₀) := by
    simp [memorise_code, h0, hfs₁]
  refine ⟨by rw [h₁], ?_⟩
  rw [h₁]
  simp [memorise_code, lookupA_insertA, hfs₂, hne]

/-- Witness for claim C2 at a concrete input. -/
theorem memorise_code_integrity_on_changed_signature_witness :
    lookupA "swish:1.0.0" ([] : List (String × CodeRecord)) = none ∧
    (fun q => if q = "src/code/f.pl" then some 1 else none) "src/code/f.pl" = some 1 ∧
    (fun q => if q = "src/code/f.pl" then some 2 else none) "src/code/f.pl" = some 2 ∧
    (2 : Nat) ≠ 1 ∧
    ((memorise_code (fun q => if q = "src/code/f.pl" then some 1 else none)
        "doc1" "swish:1.0.0" (some "src/code/f.pl") true []).1 = none ∧
      memorise_code (fun q => if q = "src/code/f.pl" then some 2 else none)
        "doc2" "swish:1.0.0" (some "src/code/f.pl") true
        (memorise_code (fun q => if q = "src/code/f.pl" then some 1 else none)
          "doc1" "swish:1.0.0" (some "src/code/f.pl") true []).2
      = (some .signatureChanged,
         (memorise_code (fun q => if q = "src/code/f.pl" then some 1 else none)
          "doc1" "swish:1.0.0" (some "src/code/f.pl") true []).2)) :=
  ⟨rfl, rfl, rfl, by decide,
   memorise_code_integrity_on_changed_signature
     (fun q => if q = "src/code/f.pl" then some 1 else none)
     (fun q => if q = "src/code/f.pl" then some 2 else none)
     "doc1" "doc2" "swish:1.0.0" "src/code/f.pl" 1 2 true true []
     rfl rfl rfl (by decide)⟩

/-! ## Claim C3: inline fragments shared between documents -/

/-- Claim C3: registering the same inline-content fragment id (no source
path) from two different documents succeeds and the fragment afterwards
references both documents; when both registrations claim the main code
block, the second fails with the ownership conflict error. -/
theorem memorise_code_inline_sharing_and_conflict
    (fs : String → Option Nat) (d₁ d₂ id : String) (reg₀ : List (String × CodeRecord))
    (h0 : lookupA id reg₀ = none) (_hne : d₁ ≠ d₂) :
    (∃ reg₁ reg₂,
       memorise_code fs d₁ id none false reg₀ = (none, reg₁) ∧
       memorise_code fs d₂ id none false reg₁ = (none, reg₂) ∧
       ∃ record, lookupA id reg₂ = some record ∧ d₁ ∈ record.docs ∧ d₂ ∈ record.docs) ∧
    (∃ reg₁,
       memorise_code fs d₁ id none true reg₀ = (none, reg₁) ∧
       (memorise_code fs d₂ id none true reg₁).1 = some (.mainDocConflict id d₁ d₂)) := by
  constructor
  · refine ⟨insertA id ⟨{d₁}, none, none, none⟩ reg₀,
      insertA id ⟨insert d₂ {d₁}, none, none, none⟩
        (insertA id ⟨{d₁}, none, none, none⟩ reg₀), ?_, ?_, ?_⟩
    · simp [memorise_code, h0]
    · simp [memorise_code, memoriseKnown, lookupA_insertA]
    · exact ⟨⟨insert d₂ {d₁}, none, none, none⟩, by simp [lookupA_insertA],
        by simp, by simp⟩
  · refine ⟨insertA id ⟨{d₁}, some d₁, none, none⟩ reg₀, ?_, ?_⟩
    · simp [memorise_code, h0]
    · simp [memorise_code, memoriseKnown, lookupA_insertA]

/-- Witness for claim C3 at a concrete input. -/
theorem memorise_code_inline_sharing_and_conflict_witness :
    lookupA "swish:2.0.0" ([] : List (String × CodeRecord)) = none ∧
    "doc1" ≠ "doc2" ∧
    ((∃ reg₁ reg₂,
       memorise_code (fun _ => none) "doc1" "swish:2.0.0" none false [] = (none, reg₁) ∧
       memorise_code (fun _ => none) "doc2" "swish:2.0.0" none false reg₁ = (none, reg₂) ∧
       ∃ record, lookupA "swish:2.0.0" reg₂ = some record ∧
         "doc1" ∈ record.docs ∧ "doc2" ∈ record.docs) ∧
     (∃ reg₁,
       memorise_code (fun _ => none) "doc1" "swish:2.0.0" none true [] = (none, reg₁) ∧
       (memorise_code (fun _ => none) "doc2" "swish:2.0.0" none true reg₁).1
         = some (.mainDocConflict "swish:2.0.0" "doc1" "doc2"))) :=
  ⟨rfl, by decide,
   memorise_code_inline_sharing_and_conflict
     (fun _ => none) "doc1" "doc2" "swish:2.0.0" [] rfl (by decide)⟩

/-! ## Claim C10: purging a document is idempotent -/

theorem purge_inherited_idem (d : String) (l : List (String × Finset String)) :
    purge_inherited d (purge_inherited d l) = purge_inherited d l := by
  induction l with
  | nil => rfl
  | cons hd tl ih =>
    obtain ⟨k, s⟩ := hd
    by_cases h1 : d ∈ s ∧ s.card = 1
    · simp [purge_inherited, h1, ih]
    · by_cases h2 : d ∈ s
      · have hcard : s.card ≠ 1 := fun hc => h1 ⟨h2, hc⟩
        simp [purge_inherited, h1, h2, hcard, Finset.not_mem_erase, ih]
      · simp [purge_inherited, h1, h2, ih]

theorem purgeRecord_not_mem (d : String) (record : CodeRecord) :
    d ∉ (purgeRecord d record).docs ∧ (purgeRecord d record).main_doc ≠ some d := by
  by_cases h2 : d ∈ record.docs
  · by_cases h3 : record.main_doc = some d
    · simp [purgeRecord, h2, h3, Finset.not_mem_erase]
    · simp [purgeRecord, h2, h3, Finset.not_mem_erase]
  · by_cases h3 : record.main_doc = some d
    · simp [purgeRecord, h2, h3]
    · simp [purgeRecord, h2, h3]

theorem purgeRecord_fixed (d : String) (record : CodeRecord)
    (h2 : d ∉ record.docs) (h3 : record.main_doc ≠ some d) :
    purgeRecord d record = record := by
  simp [purgeRecord, h2, h3]

theorem purge_code_idem (d : String) (l : List (String × CodeRecord)) :
    purge_code d (purge_code d l) = purge_code d l := by
  induction l with
  | nil => rfl
  | cons hd tl ih =>
    obtain ⟨k, record⟩ := hd
    by_cases h1 : purgeDeletes d record
    · simp [purge_code, h1, ih]
    · have hnot := purgeRecord_not_mem d record
      have hdel : ¬ purgeDeletes d (purgeRecord d record) := fun hc => hnot.1 hc.1
      simp [purge_code, h1, hdel, purgeRecord_fixed d _ hnot.1 hnot.2, ih]

theorem purge_query_idem (d : String) (l : List (String × String)) :
    purge_query d (purge_query d l) = purge_query d l := by
  induction l with
  | nil => rfl
  | cons hd tl ih =>
    by_cases h : hd.2 = d
    · simp [purge_query, h]
    · simp [purge_query, h]

/-! ## Claim C4: purging a document from the Code Registry -/

theorem mem_keys_of_mem_keys_purge_code (d k : String) (l : List (String × CodeRecord))
    (h : k ∈ (purge_code d l).map Prod.fst) : k ∈ l.map Prod.fst := by
  induction l with
  | nil => simp [purge_code] at h
  | cons hd tl ih =>
    obtain ⟨k₀, r₀⟩ := hd
    by_cases hdel : purgeDeletes d r₀
    · simp only [purge_code, if_pos hdel] at h
      simp [ih h]
    · simp only [purge_code, if_neg hdel, List.map_cons, List.mem_cons] at h
      rcases h with h | h
      · simp [h]
      · simp [ih h]

theorem erase_eq_empty_iff_card (s : Finset String) (d : String) (hd : d ∈ s) :
    s.erase d = ∅ ↔ s.card = 1 := by
  have hpos : 0 < s.card := Finset.card_pos.mpr ⟨d, hd⟩
  rw [← Finset.card_eq_zero, Finset.card_erase_of_mem hd]
  omega

theorem purge_code_lookup (d k : String) (registry : List (String × CodeRecord))
    (hnd : NodupKeys registry) (record : CodeRecord)
    (h : lookupA k registry = some record) :
    (purgeDeletes d record → lookupA k (purge_code d registry) = none) ∧
    (¬ purgeDeletes d record →
      lookupA k (purge_code d registry) = some (purgeRecord d record)) := by
  induction registry with
  | nil => simp [lookupA] at h
  | cons hd tl ih =>
    obtain ⟨k₀, r₀⟩ := hd
    have hnd' : NodupKeys tl := by
      have := hnd
      simp only [NodupKeys, List.map_cons, List.nodup_cons] at this
      exact this.2
    have hk₀ : k₀ ∉ tl.map Prod.fst := by
      have := hnd
      simp only [NodupKeys, List.map_cons, List.nodup_cons] at this
      exact this.1
    by_cases hk : k = k₀
    · subst hk
      simp [lookupA] at h
      subst h
      constructor
      · intro hdel
        simp only [purge_code, if_pos hdel]
        exact lookupA_eq_none_of_not_mem k _
          (fun hc => hk₀ (mem_keys_of_mem_keys_purge_code d k tl hc))
      · intro hdel
        simp [purge_code, if_neg hdel, lookupA]
    · simp only [lookupA, if_neg hk] at h
      have := ih hnd' h
      by_cases hdel₀ : purgeDeletes d r₀
      · simpa [purge_code, if_pos hdel₀] using this
      · simpa [purge_code, if_neg hdel₀, lookupA, hk] using this

/-- Claim C4: purging document `d` removes `d` from every fragment's
referencing set; a fragment whose referencing set thereby becomes empty
is deleted from the Code Registry; a fragment with another remaining
referencer is kept with exactly the remaining referencers and unchanged
path and signature; and when `d` was the owning document the ownership
is cleared to none (which by itself never deletes the fragment). -/
theorem purge_code_removes_document (d k : String)
    (registry : List (String × CodeRecord)) (hnd : NodupKeys registry)
    (record : CodeRecord) (h : lookupA k registry = some record) :
    (d ∈ record.docs → record.docs.erase d = ∅ →
      lookupA k (purge_code d registry) = none) ∧
    (d ∈ record.docs → record.docs.erase d ≠ ∅ →
      lookupA k (purge_code d registry)
        = some { record with
                 docs := record.docs.erase d,
                 main_doc := if record.main_doc = some d then none
                             else record.main_doc }) ∧
    (d ∉ record.docs →
      lookupA k (purge_code d registry)
        = some { record with
                 main_doc := if record.main_doc = some d then none
                             else record.main_doc }) ∧
    (∀ record', lookupA k (purge_code d registry) = some record' →
      d ∉ record'.docs ∧ record'.main_doc ≠ some d) := by
  have hmain := purge_code_lookup d k registry hnd record h
  refine ⟨?_, ?_, ?_, ?_⟩
  · intro hmem hempty
    exact hmain.1 ⟨hmem, (erase_eq_empty_iff_card record.docs d hmem).mp hempty⟩
  · intro hmem hne
    have hdel : ¬ purgeDeletes d record :=
      fun hc => hne ((erase_eq_empty_iff_card record.docs d hmem).mpr hc.2)
    rw [hmain.2 hdel]
    by_cases h3 : record.main_doc = some d
    · simp [purgeRecord, hmem, h3]
    · simp [purgeRecord, hmem, h3]
  · intro hmem
    have hdel : ¬ purgeDeletes d record := fun hc => hmem hc.1
    rw [hmain.2 hdel]
    by_cases h3 : record.main_doc = some d
    · simp [purgeRecord, hmem, h3]
    · simp [purgeRecord, hmem, h3]
  · intro record' h'
    by_cases hdel : purgeDeletes d record
    · rw [hmain.1 hdel] at h'
      cases h'
    · rw [hmain.2 hdel] at h'
      cases h'
      exact purgeRecord_not_mem d record

/-- Witness for claim C4 at a concrete input: a fragment referenced by
`doc1` and `doc2` and owned by `doc1`, purged of `doc1`, keeps `doc2`
as its only referencer and loses its owner. -/
theorem purge_code_removes_document_witness :
    NodupKeys [("swish:1.0.0",
      (⟨{"doc1", "doc2"}, some "doc1", none, none⟩ : CodeRecord))] ∧
    lookupA "swish:1.0.0" [("swish:1.0.0",
      (⟨{"doc1", "doc2"}, some "doc1", none, none⟩ : CodeRecord))]
      = some ⟨{"doc1", "doc2"}, some "doc1", none, none⟩ ∧
    lookupA "swish:1.0.0" (purge_code "doc1" [("swish:1.0.0",
      (⟨{"doc1", "doc2"}, some "doc1", none, none⟩ : CodeRecord))])
      = some ⟨{"doc2"}, none, none, none⟩ := by
  refine ⟨by decide, by decide, ?_⟩
  have h := (purge_code_removes_document "doc1" "swish:1.0.0"
    [("swish:1.0.0", ⟨{"doc1", "doc2"}, some "doc1", none, none⟩)]
    (by decide) ⟨{"doc1", "doc2"}, some "doc1", none, none⟩ (by decide)).2.1
    (by decide) (by decide)
  rw [h]
  decide

/-- Claim C10: purging a document twice in a row leaves the same
has-swish set, inheritance graph, Code Registry and Query Registry as
purging it once — the second purge is a no-op. -/
theorem purge_all_idempotent (d : String) (env : SwishEnv) :
    purge_all d (purge_all d env) = purge_all d env := by
  simp [purge_all, Finset.erase_idem, purge_inherited_idem, purge_code_idem,
    purge_query_idem]

/-! ## Claim C8: duplicate query declaration -/

/-- Counterexample to claim C8 as stated: the query id `swishq:1.2.3`
is already owned by `docA` itself — not by a different document — yet
re-declaring it from `docA` fails with the duplicate error, where the
claim predicts success. -/
theorem declare_swish_query_same_owner_counterexample :
    lookupA "swishq:1.2.3" [("swishq:1.2.3", "docA")] = some "docA" ∧
    declare_swish_query "docA" "swishq:1.2.3" [("swishq:1.2.3", "docA")]
      = .error (.queryDuplicate "swishq:1.2.3") := by
  exact ⟨by decide, by decide⟩

/-- Claim C8 (amended): declaring a query id fails with the duplicate
error precisely when the id is already present in the Query Registry,
regardless of which document owns it; a declaration whose id is not yet
present succeeds and records the declaring document as the single
owner. -/
theorem declare_swish_query_duplicate_iff_present
    (docname block_id : String) (queryReg : List (String × String))
    (hpre : strStartsWith block_id "swishq:" = true)
    (hext : strEndsWith block_id ".pl" = false) :
    ((lookupA block_id queryReg).isSome →
      declare_swish_query docname block_id queryReg
        = .error (.queryDuplicate block_id)) ∧
    (lookupA block_id queryReg = none →
      ∃ queryReg', declare_swish_query docname block_id queryReg = .ok queryReg' ∧
        lookupA block_id queryReg' = some docname) := by
  constructor
  · intro hsome
    cases hq : lookupA block_id queryReg with
    | none => rw [hq] at hsome; simp at hsome
    | some v => simp [declare_swish_query, hpre, hext, hq]
  · intro hnone
    exact ⟨insertA block_id docname queryReg,
      by simp [declare_swish_query, hpre, hext, hnone],
      by simp [lookupA_insertA]⟩

/-- Witness for the amended claim C8 at a concrete input. -/
theorem declare_swish_query_duplicate_iff_present_witness :
    strStartsWith "swishq:9.9" "swishq:" = true ∧
    strEndsWith "swishq:9.9" ".pl" = false ∧
    (((lookupA "swishq:9.9" [("swishq:1.2.3", "docA")]).isSome →
      declare_swish_query "docB" "swishq:9.9" [("swishq:1.2.3", "docA")]
        = .error (.queryDuplicate "swishq:9.9")) ∧
     (lookupA "swishq:9.9" [("swishq:1.2.3", "docA")] = none →
      ∃ queryReg', declare_swish_query "docB" "swishq:9.9" [("swishq:1.2.3", "docA")]
        = .ok queryReg' ∧ lookupA "swishq:9.9" queryReg' = some "docB")) :=
  ⟨by decide, by decide,
   declare_swish_query_duplicate_iff_present "docB" "swishq:9.9"
     [("swishq:1.2.3", "docA")] (by decide) (by decide)⟩

/-! ## Claim C7: ownership handling when merging Code Registries -/

/-- Counterexample to claim C7 as stated: a fragment present in both
partial registries with the same owning document `dA` on both sides
makes the merge fail, where the claim predicts success preserving the
single owner. -/
theorem merge_swish_detect_same_owner_counterexample :
    lookupA "swish:1.0.0"
      [("swish:1.0.0", (⟨{"dA"}, some "dA", none, none⟩ : CodeRecord))]
      = some ⟨{"dA"}, some "dA", none, none⟩ ∧
    merge_swish_detect
      ⟨∅, [], [("swish:1.0.0", ⟨{"dA"}, some "dA", none, none⟩)], []⟩
      ⟨∅, [], [("swish:1.0.0", ⟨{"dA"}, some "dA", none, none⟩)], []⟩
      = .error (.mergeMainConflict "dA" "dA" "swish:1.0.0") := by
  exact ⟨by decide, by decide⟩

/-- Claim C7 (amended): when merging two partial Code Registries, a
fragment present in both sides with identical fingerprint and path
fails the merge with the ownership-conflict error whenever both sides
record an owning document — even the same one — and merges successfully,
preserving the single recorded owner, when at least one side records no
owner. -/
theorem merge_swish_detect_ownership (k : String) (r₁ r₂ : CodeRecord)
    (hsig : r₁.signature = r₂.signature) (hpath : r₁.path = r₂.path) :
    (∀ m m', r₁.main_doc = some m' → r₂.main_doc = some m →
      merge_swish_detect ⟨∅, [], [(k, r₁)], []⟩ ⟨∅, [], [(k, r₂)], []⟩
        = .error (.mergeMainConflict m m' k)) ∧
    (r₂.main_doc = none →
      merge_swish_detect ⟨∅, [], [(k, r₁)], []⟩ ⟨∅, [], [(k, r₂)], []⟩
        = .ok ⟨∅, [], [(k, { r₁ with docs := r₁.docs ∪ r₂.docs })], []⟩) ∧
    (r₁.main_doc = none →
      merge_swish_detect ⟨∅, [], [(k, r₁)], []⟩ ⟨∅, [], [(k, r₂)], []⟩
        = .ok ⟨∅, [], [(k, { r₁ with
                             docs := r₁.docs ∪ r₂.docs,
                             main_doc := r₂.main_doc })], []⟩) := by
  have hcond : ¬(r₁.signature ≠ r₂.signature ∨ r₁.path ≠ r₂.path) := by
    simp [hsig, hpath]
  refine ⟨?_, ?_, ?_⟩
  · intro m m' h₁ h₂
    simp [merge_swish_detect, mergeDict, combineCodeRecord, lookupA, insertA,
      hcond, h₁, h₂, hsig, hpath]
  · intro h₂
    cases h₁ : r₁.main_doc with
    | none =>
      simp [merge_swish_detect, mergeDict, combineCodeRecord, lookupA, insertA,
        hcond, h₁, h₂, hsig, hpath]
    | some m' =>
      simp [merge_swish_detect, mergeDict, combineCodeRecord, lookupA, insertA,
        hcond, h₁, h₂, hsig, hpath]
  · intro h₁
    cases h₂ : r₂.main_doc with
    | none =>
      simp [merge_swish_detect, mergeDict, combineCodeRecord, lookupA, insertA,
        hcond, h₁, h₂, hsig, hpath]
    | some m =>
      simp [merge_swish_detect, mergeDict, combineCodeRecord, lookupA, insertA,
        hcond, h₁, h₂, hsig, hpath]

/-- Witness for the amended claim C7 at a concrete input: only the
second side records an owner and the merge keeps that single owner. -/
theorem merge_swish_detect_ownership_witness :
    (⟨{"d1"}, none, some "f.pl", some 3⟩ : CodeRecord).signature
      = (⟨{"d2"}, some "d2", some "f.pl", some 3⟩ : CodeRecord).signature ∧
    (⟨{"d1"}, none, some "f.pl", some 3⟩ : CodeRecord).path
      = (⟨{"d2"}, some "d2", some "f.pl", some 3⟩ : CodeRecord).path ∧
    merge_swish_detect
      ⟨∅, [], [("swish:3.1", ⟨{"d1"}, none, some "f.pl", some 3⟩)], []⟩
      ⟨∅, [], [("swish:3.1", ⟨{"d2"}, some "d2", some "f.pl", some 3⟩)], []⟩
      = .ok ⟨∅, [], [("swish:3.1", ⟨{"d1", "d2"}, some "d2", some "f.pl", some 3⟩)], []⟩ := by
  refine ⟨rfl, rfl, ?_⟩
  have h := (merge_swish_detect_ownership "swish:3.1"
    ⟨{"d1"}, none, some "f.pl", some 3⟩
    ⟨{"d2"}, some "d2", some "f.pl", some 3⟩ rfl rfl).2.2 rfl
  rw [h]
  decide

/-! ## Claim C1: merging partial registries is commutative -/

theorem mergeDict_lookup {α : Type} (c : String → α → α → Except SwishError α) :
    ∀ (other : List (String × α)), NodupKeys other →
    ∀ (env r : List (String × α)), mergeDict c env other = .ok r →
    ∀ k,
      (lookupA k other = none → lookupA k r = lookupA k env) ∧
      (∀ y, lookupA k other = some y → lookupA k env = none → lookupA k r = some y) ∧
      (∀ x y, lookupA k env = some x → lookupA k other = some y →
        ∃ z, c k x y = .ok z ∧ lookupA k r = some z) := by
  intro other
  induction other with
  | nil =>
    intro _ env r h k
    simp only [mergeDict, Except.ok.injEq] at h
    subst h
    exact ⟨fun _ => rfl, fun y hy _ => by simp [lookupA] at hy,
      fun x y _ hy => by simp [lookupA] at hy⟩
  | cons hd tl ih =>
    obtain ⟨k₀, v₀⟩ := hd
    intro hnd env r h k
    have hnd' : NodupKeys tl ∧ k₀ ∉ tl.map Prod.fst := by
      have := hnd
      simp only [NodupKeys, List.map_cons, List.nodup_cons] at this
      exact ⟨this.2, this.1⟩
    cases henv : lookupA k₀ env with
    | none =>
      simp only [mergeDict, henv] at h
      have IH := ih hnd'.1 (insertA k₀ v₀ env) r h k
      by_cases hk : k = k₀
      · subst hk
        have hoth : lookupA k tl = none := lookupA_eq_none_of_not_mem k tl hnd'.2
        have hr : lookupA k r = some v₀ := by
          rw [IH.1 hoth, lookupA_insertA]
          simp
        refine ⟨fun hnone => by simp [lookupA] at hnone, ?_, ?_⟩
        · intro y hy _
          simp [lookupA] at hy
          rw [hr, hy]
        · intro x y hx _
          rw [henv] at hx
          cases hx
      · have hoth : lookupA k ((k₀, v₀) :: tl) = lookupA k tl := by
          simp [lookupA, hk]
        have henv' : lookupA k (insertA k₀ v₀ env) = lookupA k env := by
          rw [lookupA_insertA, if_neg hk]
        refine ⟨?_, ?_, ?_⟩
        · intro hnone
          rw [hoth] at hnone
          rw [IH.1 hnone, henv']
        · intro y hy he
          rw [hoth] at hy
          exact IH.2.1 y hy (by rw [henv']; exact he)
        · intro x y hx hy
          rw [hoth] at hy
          exact IH.2.2 x y (by rw [henv']; exact hx) hy
    | some x₀ =>
      cases hc : c k₀ x₀ v₀ with
      | error e =>
        simp only [mergeDict, henv, hc] at h
        exact Except.noConfusion h
      | ok z₀ =>
        simp only [mergeDict, henv, hc] at h
        have IH := ih hnd'.1 (insertA k₀ z₀ env) r h k
        by_cases hk : k = k₀
        · subst hk
          have hoth : lookupA k tl = none := lookupA_eq_none_of_not_mem k tl hnd'.2
          have hr : lookupA k r = some z₀ := by
            rw [IH.1 hoth, lookupA_insertA]
            simp
          refine ⟨fun hnone => by simp [lookupA] at hnone, ?_, ?_⟩
          · intro y hy he
            rw [henv] at he
            cases he
          · intro x y hx hy
            rw [henv] at hx
            cases hx
            simp [lookupA] at hy
            subst hy
            exact ⟨z₀, hc, hr⟩
        · have hoth : lookupA k ((k₀, v₀) :: tl) = lookupA k tl := by
            simp [lookupA, hk]
          have henv' : lookupA k (insertA k₀ z₀ env) = lookupA k env := by
            rw [lookupA_insertA, if_neg hk]
          refine ⟨?_, ?_, ?_⟩
          · intro hnone
            rw [hoth] at hnone
            rw [IH.1 hnone, henv']
          · intro y hy he
            rw [hoth] at hy
            exact IH.2.1 y hy (by rw [henv']; exact he)
          · intro x y hx hy
            rw [hoth] at hy
            exact IH.2.2 x y (by rw [henv']; exact hx) hy

theorem mergeDict_comm_pointwise {α : Type} (c : String → α → α → Except SwishError α)
    (hcomm : ∀ k x y z₁ z₂, c k x y = .ok z₁ → c k y x = .ok z₂ → z₁ = z₂)
    (A B r₁ r₂ : List (String × α)) (hA : NodupKeys A) (hB : NodupKeys B)
    (h₁ : mergeDict c A B = .ok r₁) (h₂ : mergeDict c B A = .ok r₂) :
    ∀ k, lookupA k r₁ = lookupA k r₂ := by
  intro k
  have L₁ := mergeDict_lookup c B hB A r₁ h₁ k
  have L₂ := mergeDict_lookup c A hA B r₂ h₂ k
  cases ha : lookupA k A with
  | none =>
    cases hb : lookupA k B with
    | none => rw [L₁.1 hb, L₂.1 ha, ha, hb]
    | some y => rw [L₁.2.1 y hb ha, L₂.1 ha, hb]
  | some x =>
    cases hb : lookupA k B with
    | none => rw [L₁.1 hb, L₂.2.1 x ha hb, ha]
    | some y =>
      obtain ⟨z₁, hz₁, hr₁⟩ := L₁.2.2 x y ha hb
      obtain ⟨z₂, hz₂, hr₂⟩ := L₂.2.2 y x hb ha
      rw [hr₁, hr₂, hcomm k x y z₁ z₂ hz₁ hz₂]

theorem combineCodeRecord_comm (k : String) (x y z₁ z₂ : CodeRecord)
    (h₁ : combineCodeRecord k x y = .ok z₁) (h₂ : combineCodeRecord k y x = .ok z₂) :
    z₁ = z₂ := by
  by_cases hs : x.signature = y.signature
  · by_cases hp : x.path = y.path
    · have hc₁ : ¬(x.signature ≠ y.signature ∨ x.path ≠ y.path) := by simp [hs, hp]
      have hc₂ : ¬(y.signature ≠ x.signature ∨ y.path ≠ x.path) := by
        simp [hs.symm, hp.symm]
      cases hx : x.main_doc with
      | none =>
        cases hy : y.main_doc with
        | none =>
          simp only [combineCodeRecord, if_neg hc₁, hx, hy, Except.ok.injEq] at h₁
          simp only [combineCodeRecord, if_neg hc₂, hx, hy, Except.ok.injEq] at h₂
          rw [← h₁, ← h₂]
          apply CodeRecord.ext <;> simp [Finset.union_comm, hx, hy, hs, hp]
        | some m =>
          simp only [combineCodeRecord, if_neg hc₁, hx, hy, Except.ok.injEq] at h₁
          simp only [combineCodeRecord, if_neg hc₂, hx, hy, Except.ok.injEq] at h₂
          rw [← h₁, ← h₂]
          apply CodeRecord.ext <;> simp [Finset.union_comm, hx, hy, hs, hp]
      | some m' =>
        cases hy : y.main_doc with
        | none =>
          simp only [combineCodeRecord, if_neg hc₁, hx, hy, Except.ok.injEq] at h₁
          simp only [combineCodeRecord, if_neg hc₂, hx, hy, Except.ok.injEq] at h₂
          rw [← h₁, ← h₂]
          apply CodeRecord.ext <;> simp [Finset.union_comm, hx, hy, hs, hp]
        | some m =>
          simp only [combineCodeRecord, if_neg hc₁, hx, hy] at h₁
          exact Except.noConfusion h₁
    · have hc₁ : x.signature ≠ y.signature ∨ x.path ≠ y.path := .inr hp
      simp only [combineCodeRecord, if_pos hc₁] at h₁
      exact Except.noConfusion h₁
  · have hc₁ : x.signature ≠ y.signature ∨ x.path ≠ y.path := .inl hs
    simp only [combineCodeRecord, if_pos hc₁] at h₁
    exact Except.noConfusion h₁

/-- Claim C1: merging partial registry `b` into `a` yields the same
final registry content — has-swish set, inheritance graph, fragment
records (ids, paths, fingerprints, referencing sets, owners) and query
ownership — as merging `a` into `b`, whenever both merges succeed. -/
theorem merge_all_commutative (a b : SwishEnv)
    (ha : a.WellKeyed) (hb : b.WellKeyed) (r₁ r₂ : SwishEnv)
    (h₁ : merge_all a b = .ok r₁) (h₂ : merge_all b a = .ok r₂) :
    r₁.sl_has_swish = r₂.sl_has_swish ∧
    (∀ k, lookupA k r₁.sl_swish_inherited = lookupA k r₂.sl_swish_inherited) ∧
    (∀ k, lookupA k r₁.sl_swish_code = lookupA k r₂.sl_swish_code) ∧
    (∀ k, lookupA k r₁.sl_swish_query = lookupA k r₂.sl_swish_query) := by
  obtain ⟨haI, haC, haQ⟩ := ha
  obtain ⟨hbI, hbC, hbQ⟩ := hb
  cases e₁I : mergeDict (fun _ s t => .ok (s ∪ t)) a.sl_swish_inherited b.sl_swish_inherited with
  | error e => simp [merge_all, merge_swish_detect, e₁I] at h₁
  | ok inh₁ =>
    cases e₁C : mergeDict combineCodeRecord a.sl_swish_code b.sl_swish_code with
    | error e => simp [merge_all, merge_swish_detect, e₁I, e₁C] at h₁
    | ok code₁ =>
      cases e₁Q : mergeDict (fun k _ _ => .error (.mergeQueryDuplicate k))
          a.sl_swish_query b.sl_swish_query with
      | error e =>
        simp [merge_all, merge_swish_detect, merge_swish_query, e₁I, e₁C, e₁Q] at h₁
      | ok query₁ =>
        cases e₂I : mergeDict (fun _ s t => .ok (s ∪ t))
            b.sl_swish_inherited a.sl_swish_inherited with
        | error e => simp [merge_all, merge_swish_detect, e₂I] at h₂
        | ok inh₂ =>
          cases e₂C : mergeDict combineCodeRecord b.sl_swish_code a.sl_swish_code with
          | error e => simp [merge_all, merge_swish_detect, e₂I, e₂C] at h₂
          | ok code₂ =>
            cases e₂Q : mergeDict (fun k _ _ => .error (.mergeQueryDuplicate k))
                b.sl_swish_query a.sl_swish_query with
            | error e =>
              simp [merge_all, merge_swish_detect, merge_swish_query,
                e₂I, e₂C, e₂Q] at h₂
            | ok query₂ =>
              simp only [merge_all, merge_swish_detect, merge_swish_query,
                e₁I, e₁C, e₁Q, e₂I, e₂C, e₂Q, Except.ok.injEq] at h₁ h₂
              subst h₁
              subst h₂
              refine ⟨Finset.union_comm _ _, ?_, ?_, ?_⟩
              · exact mergeDict_comm_pointwise _
                  (fun k x y z₁ z₂ hz₁ hz₂ => by
                    simp only [Except.ok.injEq] at hz₁ hz₂
                    rw [← hz₁, ← hz₂, Finset.union_comm])
                  _ _ _ _ haI hbI e₁I e₂I
              · exact mergeDict_comm_pointwise _ combineCodeRecord_comm
                  _ _ _ _ haC hbC e₁C e₂C
              · exact mergeDict_comm_pointwise _
                  (fun k x y z₁ z₂ hz₁ _ => by cases hz₁)
                  _ _ _ _ haQ hbQ e₁Q e₂Q

/-- Witness for claim C1 at a concrete input: two disjoint partial
registries merged both ways produce differently ordered but pointwise
identical dictionaries. -/
theorem merge_all_commutative_witness :
    SwishEnv.WellKeyed ⟨{"d1"}, [],
      [("swish:a", ⟨{"d1"}, some "d1", none, none⟩)], [("swishq:a", "d1")]⟩ ∧
    SwishEnv.WellKeyed ⟨{"d2"}, [],
      [("swish:b", ⟨{"d2"}, none, none, none⟩)], []⟩ ∧
    merge_all
      ⟨{"d1"}, [], [("swish:a", ⟨{"d1"}, some "d1", none, none⟩)], [("swishq:a", "d1")]⟩
      ⟨{"d2"}, [], [("swish:b", ⟨{"d2"}, none, none, none⟩)], []⟩
      = .ok ⟨{"d1"} ∪ {"d2"}, [],
          [("swish:a", ⟨{"d1"}, some "d1", none, none⟩),
           ("swish:b", ⟨{"d2"}, none, none, none⟩)], [("swishq:a", "d1")]⟩ ∧
    merge_all
      ⟨{"d2"}, [], [("swish:b", ⟨{"d2"}, none, none, none⟩)], []⟩
      ⟨{"d1"}, [], [("swish:a", ⟨{"d1"}, some "d1", none, none⟩)], [("swishq:a", "d1")]⟩
      = .ok ⟨{"d2"} ∪ {"d1"}, [],
          [("swish:b", ⟨{"d2"}, none, none, none⟩),
           ("swish:a", ⟨{"d1"}, some "d1", none, none⟩)], [("swishq:a", "d1")]⟩ ∧
    (∀ k, lookupA k
        [("swish:a", (⟨{"d1"}, some "d1", none, none⟩ : CodeRecord)),
         ("swish:b", ⟨{"d2"}, none, none, none⟩)]
      = lookupA k
        [("swish:b", (⟨{"d2"}, none, none, none⟩ : CodeRecord)),
         ("swish:a", ⟨{"d1"}, some "d1", none, none⟩)]) := by
  refine ⟨by constructor <;> decide, by constructor <;> decide, rfl, rfl, ?_⟩
  have h := merge_all_commutative
    ⟨{"d1"}, [], [("swish:a", ⟨{"d1"}, some "d1", none, none⟩)], [("swishq:a", "d1")]⟩
    ⟨{"d2"}, [], [("swish:b", ⟨{"d2"}, none, none, none⟩)], []⟩
    ⟨by decide, by decide, by decide⟩ ⟨by decide, by decide, by decide⟩
    ⟨{"d1"} ∪ {"d2"}, [],
      [("swish:a", ⟨{"d1"}, some "d1", none, none⟩),
       ("swish:b", ⟨{"d2"}, none, none, none⟩)], [("swishq:a", "d1")]⟩
    ⟨{"d2"} ∪ {"d1"}, [],
      [("swish:b", ⟨{"d2"}, none, none, none⟩),
       ("swish:a", ⟨{"d1"}, some "d1", none, none⟩)], [("swishq:a", "d1")]⟩
    rfl rfl
  exact h.2.2.1

/-! ## Claim C5: the staleness detector -/

theorem analyseLoop_ok (fs : String → Option Nat) :
    ∀ (l : List CodeRecord) (acc : Finset String),
    (∀ record ∈ l, record.path = none → record.signature = none) →
    ∃ S, analyseLoop fs acc l = .ok S ∧
      ∀ d, d ∈ S ↔ (d ∈ acc ∨ ∃ record ∈ l, isStale fs record = true ∧ d ∈ record.docs) := by
  intro l
  induction l with
  | nil =>
    intro acc _
    exact ⟨acc, rfl, by simp⟩
  | cons record rest ih =>
    intro acc hinv
    have hrest := fun r hr => hinv r (List.mem_cons_of_mem _ hr)
    cases hp : record.path with
    | none =>
      have hsig : record.signature = none := hinv record (List.mem_cons_self record rest) hp
      obtain ⟨S, hS, hmem⟩ := ih acc hrest
      refine ⟨S, by simp [analyseLoop, hp, hsig, hS], ?_⟩
      intro d
      rw [hmem d]
      simp only [List.mem_cons]
      constructor
      · rintro (hd | ⟨r, hr, hst, hdm⟩)
        · exact .inl hd
        · exact .inr ⟨r, .inr hr, hst, hdm⟩
      · rintro (hd | ⟨r, hr | hr, hst, hdm⟩)
        · exact .inl hd
        · subst hr
          rw [isStale, hp] at hst
          cases hst
        · exact .inr ⟨r, hr, hst, hdm⟩
    | some p =>
      have hstep : ∀ (stale : Bool),
          analyseLoop fs acc (record :: rest)
            = analyseLoop fs (if stale then acc ∪ record.docs else acc) rest →
          isStale fs record = stale →
          ∃ S, analyseLoop fs acc (record :: rest) = .ok S ∧
            ∀ d, d ∈ S ↔ (d ∈ acc ∨
              ∃ r ∈ record :: rest, isStale fs r = true ∧ d ∈ r.docs) := by
        intro stale hloop hst
        obtain ⟨S, hS, hmem⟩ := ih (if stale then acc ∪ record.docs else acc) hrest
        refine ⟨S, by rw [hloop, hS], ?_⟩
        intro d
        rw [hmem d]
        cases stale with
        | true =>
          simp only [if_true, Finset.mem_union, List.mem_cons]
          constructor
          · rintro ((hd | hd) | ⟨r, hr, hst', hdm⟩)
            · exact .inl hd
            · exact .inr ⟨record, .inl rfl, hst, hd⟩
            · exact .inr ⟨r, .inr hr, hst', hdm⟩
          · rintro (hd | ⟨r, hr | hr, hst', hdm⟩)
            · exact .inl (.inl hd)
            · subst hr
              exact .inl (.inr hdm)
            · exact .inr ⟨r, hr, hst', hdm⟩
        | false =>
          simp only [if_false, List.mem_cons]
          constructor
          · rintro (hd | ⟨r, hr, hst', hdm⟩)
            · exact .inl hd
            · exact .inr ⟨r, .inr hr, hst', hdm⟩
          · rintro (hd | ⟨r, hr | hr, hst', hdm⟩)
            · exact .inl hd
            · subst hr
              rw [hst] at hst'
              cases hst'
            · exact .inr ⟨r, hr, hst', hdm⟩
      cases hfs : fs p with
      | none =>
        exact hstep true (by simp [analyseLoop, hp, hfs]) (by simp [isStale, hp, hfs])
      | some t =>
        by_cases hne : (some t : Option Nat) ≠ record.signature
        · exact hstep true (by simp [analyseLoop, hp, hfs, hne])
            (by simp [isStale, hp, hfs, hne])
        · exact hstep false (by simp [analyseLoop, hp, hfs, hne])
            (by simp [isStale, hp, hfs, hne])

/-- Claim C5: `analyse_swish_code` returns exactly the union, over
file-backed fragments whose on-disk modification time differs from the
stored fingerprint or whose file no longer exists, of those fragments'
referencing-document sets, minus the union of the added, changed and
removed input sets; fragments without a source path never contribute,
and no error is raised for a missing file. -/
theorem analyse_swish_code_spec (fs : String → Option Nat)
    (registry : List (String × CodeRecord)) (added changed removed : Finset String)
    (hinv : ∀ e ∈ registry, (e : String × CodeRecord).2.path = none →
      e.2.signature = none) :
    (∃ S, analyse_swish_code fs registry added changed removed = .ok S ∧
      ∀ d, d ∈ S ↔
        ((∃ e ∈ registry, isStale fs (e : String × CodeRecord).2 = true ∧ d ∈ e.2.docs) ∧
         d ∉ added ∧ d ∉ changed ∧ d ∉ removed)) ∧
    (∀ record : CodeRecord, record.path = none → isStale fs record = false) := by
  constructor
  · have hinv' : ∀ record ∈ registry.map Prod.snd, record.path = none →
        record.signature = none := by
      intro record hr hp
      obtain ⟨e, he, hee⟩ := List.mem_map.mp hr
      subst hee
      exact hinv e he hp
    obtain ⟨S, hS, hmem⟩ := analyseLoop_ok fs (registry.map Prod.snd) ∅ hinv'
    refine ⟨S \ (removed ∪ changed ∪ added), by simp [analyse_swish_code, hS], ?_⟩
    intro d
    rw [Finset.mem_sdiff, hmem d]
    simp only [Finset.not_mem_empty, false_or, Finset.mem_union, List.mem_map]
    constructor
    · rintro ⟨⟨r, ⟨e, he, hee⟩, hst, hdm⟩, hq⟩
      push_neg at hq
      subst hee
      exact ⟨⟨e, he, hst, hdm⟩, hq.2, hq.1.2, hq.1.1⟩
    · rintro ⟨⟨e, he, hst, hdm⟩, ha, hc, hr⟩
      exact ⟨⟨e.2, ⟨e, he, rfl⟩, hst, hdm⟩, by push_neg; exact ⟨⟨hr, hc⟩, ha⟩⟩
  · intro record hp
    rw [isStale, hp]

/-- Witness for claim C5 at a concrete input: a changed file, a deleted
file, an inline fragment, an unchanged file, and a document already
queued for removal. -/
theorem analyse_swish_code_spec_witness :
    (∀ e ∈ [("swish:a", (⟨{"da"}, none, some "a.pl", some 1⟩ : CodeRecord)),
            ("swish:b", ⟨{"db", "dc"}, none, some "b.pl", some 1⟩),
            ("swish:c", ⟨{"dd"}, none, none, none⟩),
            ("swish:d", ⟨{"de"}, none, some "d.pl", some 1⟩)],
      (e : String × CodeRecord).2.path = none → e.2.signature = none) ∧
    ((∃ S, analyse_swish_code
        (fun q => if q = "a.pl" then some 2 else if q = "d.pl" then some 1 else none)
        [("swish:a", ⟨{"da"}, none, some "a.pl", some 1⟩),
         ("swish:b", ⟨{"db", "dc"}, none, some "b.pl", some 1⟩),
         ("swish:c", ⟨{"dd"}, none, none, none⟩),
         ("swish:d", ⟨{"de"}, none, some "d.pl", some 1⟩)]
        ∅ ∅ {"dc"} = .ok S ∧
      ∀ d, d ∈ S ↔
        ((∃ e ∈ [("swish:a", (⟨{"da"}, none, some "a.pl", some 1⟩ : CodeRecord)),
                 ("swish:b", ⟨{"db", "dc"}, none, some "b.pl", some 1⟩),
                 ("swish:c", ⟨{"dd"}, none, none, none⟩),
                 ("swish:d", ⟨{"de"}, none, some "d.pl", some 1⟩)],
           isStale (fun q => if q = "a.pl" then some 2
               else if q = "d.pl" then some 1 else none)
             (e : String × CodeRecord).2 = true ∧ d ∈ e.2.docs) ∧
         d ∉ (∅ : Finset String) ∧ d ∉ (∅ : Finset String) ∧ d ∉ ({"dc"} : Finset String))) ∧
     (∀ record : CodeRecord, record.path = none →
       isStale (fun q => if q = "a.pl" then some 2
           else if q = "d.pl" then some 1 else none) record = false)) :=
  ⟨by decide,
   analyse_swish_code_spec
     (fun q => if q = "a.pl" then some 2 else if q = "d.pl" then some 1 else none)
     [("swish:a", ⟨{"da"}, none, some "a.pl", some 1⟩),
      ("swish:b", ⟨{"db", "dc"}, none, some "b.pl", some 1⟩),
      ("swish:c", ⟨{"dd"}, none, none, none⟩),
      ("swish:d", ⟨{"de"}, none, some "d.pl", some 1⟩)]
     ∅ ∅ {"dc"} (by decide)⟩

/-! ## Claim C6: reporting of unresolved inheritance references -/

theorem check_ok_node (codeReg : List (String × CodeRecord))
    (queryReg : Option (List (String × String))) (docname : String) :
    ∀ (l : List SwishCodeNode),
    check_inheritance_correctness codeReg queryReg docname l = .ok () →
    ∀ node ∈ l, checkNode codeReg queryReg node = .ok () := by
  intro l
  induction l with
  | nil =>
    intro _ node hmem
    cases hmem
  | cons n rest ih =>
    intro h node hmem
    cases hn : checkNode codeReg queryReg n with
    | error e =>
      rw [check_inheritance_correctness, hn] at h
      exact Except.noConfusion h
    | ok u =>
      cases u
      rw [check_inheritance_correctness, hn] at h
      rcases List.mem_cons.mp hmem with hmem' | hmem'
      · subst hmem'
        exact hn
      · exact ih h node hmem'

theorem checkNode_ok_inherit (codeReg : List (String × CodeRecord))
    (queryReg : Option (List (String × String))) (node : SwishCodeNode)
    (h : checkNode codeReg queryReg node = .ok ())
    (hne : node.inherit_id.getD "" ≠ "") :
    checkInheritIds codeReg (splitIds (node.inherit_id.getD "")) = .ok () := by
  cases hc : checkInheritIds codeReg (splitIds (node.inherit_id.getD "")) with
  | error e =>
    rw [checkNode, if_pos hne, hc] at h
    exact Except.noConfusion h
  | ok u =>
    cases u
    rfl

theorem checkInheritIds_ok_mem (codeReg : List (String × CodeRecord)) :
    ∀ (ids : List String), checkInheritIds codeReg ids = .ok () →
    ∀ iid ∈ ids, (lookupA iid codeReg).isSome := by
  intro ids
  induction ids with
  | nil =>
    intro _ iid hmem
    cases hmem
  | cons i rest ih =>
    intro h iid hmem
    cases hl : lookupA i codeReg with
    | none =>
      rw [checkInheritIds, hl] at h
      exact Except.noConfusion h
    | some v =>
      rw [checkInheritIds, hl] at h
      rcases List.mem_cons.mp hmem with hmem' | hmem'
      · subst hmem'
        rw [hl]
        rfl
      · exact ih h iid hmem'

theorem checkInheritIds_error_lookup (codeReg : List (String × CodeRecord)) :
    ∀ (ids : List String) (j : String),
    checkInheritIds codeReg ids = .error (.inheritNotFound j) →
    lookupA j codeReg = none := by
  intro ids
  induction ids with
  | nil =>
    intro j h
    exact Except.noConfusion h
  | cons i rest ih =>
    intro j h
    cases hl : lookupA i codeReg with
    | none =>
      rw [checkInheritIds, hl] at h
      have : i = j := by
        have := Except.error.inj h
        exact SwishError.inheritNotFound.inj this
      subst this
      exact hl
    | some v =>
      rw [checkInheritIds, hl] at h
      exact ih j h

theorem checkQueryIds_error_kind (queryReg : List (String × String)) :
    ∀ (ids : List String) (e : SwishError), checkQueryIds queryReg ids = .error e →
    ∃ iid, e = .queryRefNotFound iid := by
  intro ids
  induction ids with
  | nil =>
    intro e h
    exact Except.noConfusion h
  | cons i rest ih =>
    intro e h
    cases hl : lookupA i queryReg with
    | none =>
      rw [checkQueryIds, hl] at h
      exact ⟨i, (Except.error.inj h).symm⟩
    | some v =>
      rw [checkQueryIds, hl] at h
      exact ih e h

theorem checkNode_error_inherit (codeReg : List (String × CodeRecord))
    (queryReg : Option (List (String × String))) (node : SwishCodeNode) (j : String)
    (h : checkNode codeReg queryReg node = .error (.inheritNotFound j)) :
    lookupA j codeReg = none := by
  rw [checkNode] at h
  by_cases hne : node.inherit_id.getD "" ≠ ""
  · rw [if_pos hne] at h
    cases hc : checkInheritIds codeReg (splitIds (node.inherit_id.getD "")) with
    | error e =>
      rw [hc] at h
      have : e = .inheritNotFound j := Except.error.inj h
      subst this
      exact checkInheritIds_error_lookup codeReg _ j hc
    | ok u =>
      cases u
      rw [hc] at h
      by_cases hq : node.query_id.getD "" ≠ ""
      · rw [if_pos hq] at h
        cases queryReg with
        | none =>
          cases Except.error.inj h
        | some qr =>
          obtain ⟨iid, hkind⟩ := checkQueryIds_error_kind qr _ _ h
          cases hkind
      · rw [if_neg hq] at h
        exact Except.noConfusion h
  · rw [if_neg hne] at h
    by_cases hq : node.query_id.getD "" ≠ ""
    · rw [if_pos hq] at h
      cases queryReg with
      | none =>
        cases Except.error.inj h
      | some qr =>
        obtain ⟨iid, hkind⟩ := checkQueryIds_error_kind qr _ _ h
        cases hkind
    · rw [if_neg hq] at h
      exact Except.noConfusion h

theorem check_error_inherit (codeReg : List (String × CodeRecord))
    (queryReg : Option (List (String × String))) (docname : String) :
    ∀ (l : List SwishCodeNode) (j : String),
    check_inheritance_correctness codeReg queryReg docname l
      = .error (.inheritNotFound j) →
    lookupA j codeReg = none := by
  intro l
  induction l with
  | nil =>
    intro j h
    exact Except.noConfusion h
  | cons n rest ih =>
    intro j h
    cases hn : checkNode codeReg queryReg n with
    | error e =>
      rw [check_inheritance_correctness, hn] at h
      have : e = .inheritNotFound j := Except.error.inj h
      subst this
      exact checkNode_error_inherit codeReg queryReg n j hn
    | ok u =>
      cases u
      rw [check_inheritance_correctness, hn] at h
      exact ih j h

/-- Counterexample to claim C6 as stated: resolving the document
`consumer-doc`, whose code block inherits the unregistered id
`swish:9.9.9`, raises the reference error — but the report names only
the missing id, not the consuming document. -/
theorem check_inheritance_report_counterexample :
    check_inheritance_correctness
      [("swish:1.0.0", (⟨{"doc1"}, none, none, none⟩ : CodeRecord))] none "consumer-doc"
      [⟨some "swish:9.9.9", none⟩]
      = .error (.inheritNotFound "swish:9.9.9") ∧
    "swish:9.9.9".data <:+: (SwishError.message (.inheritNotFound "swish:9.9.9")).data ∧
    ¬ ("consumer-doc".data <:+: (SwishError.message (.inheritNotFound "swish:9.9.9")).data) := by
  refine ⟨by decide, by decide, by decide⟩

/-- Claim C6 (amended): if a document declares inheritance from a
fragment id absent from the Code Registry at resolution time, the
resolution pass raises an error; every inheritance-reference error names
an id that is indeed missing, and its report contains that missing id
(the report does not name the consuming document). -/
theorem check_inheritance_missing_id_reports
    (codeReg : List (String × CodeRecord)) (queryReg : Option (List (String × String)))
    (docname : String) (doctree : List SwishCodeNode) (node : SwishCodeNode)
    (hmem : node ∈ doctree) (iid : String)
    (hiid : iid ∈ splitIds (node.inherit_id.getD ""))
    (hmiss : lookupA iid codeReg = none) :
    (∃ e, check_inheritance_correctness codeReg queryReg docname doctree = .error e) ∧
    (∀ j, check_inheritance_correctness codeReg queryReg docname doctree
        = .error (.inheritNotFound j) →
      lookupA j codeReg = none ∧
        j.data <:+: (SwishError.message (.inheritNotFound j)).data) := by
  constructor
  · cases hch : check_inheritance_correctness codeReg queryReg docname doctree with
    | error e => exact ⟨e, rfl⟩
    | ok u =>
      cases u
      exfalso
      have hnode := check_ok_node codeReg queryReg docname doctree hch node hmem
      have hne : node.inherit_id.getD "" ≠ "" := by
        intro h0
        rw [h0] at hiid
        rw [show splitIds "" = [] from by decide] at hiid
        cases hiid
      have hloop := checkNode_ok_inherit codeReg queryReg node hnode hne
      have := checkInheritIds_ok_mem codeReg _ hloop iid hiid
      rw [hmiss] at this
      cases this
  · intro j hj
    refine ⟨check_error_inherit codeReg queryReg docname doctree j hj, ?_⟩
    exact ⟨"The inherited *".data, "* swish id does not exist.".data,
      by simp [SwishError.message, String.data_append]⟩

/-- Witness for the amended claim C6 at a concrete input. -/
theorem check_inheritance_missing_id_reports_witness :
    (⟨some "swish:9.9.9", none⟩ : SwishCodeNode) ∈
      [(⟨some "swish:9.9.9", none⟩ : SwishCodeNode)] ∧
    "swish:9.9.9" ∈ splitIds ((⟨some "swish:9.9.9", none⟩ : SwishCodeNode).inherit_id.getD "") ∧
    lookupA "swish:9.9.9"
      [("swish:1.0.0", (⟨{"doc1"}, none, none, none⟩ : CodeRecord))] = none ∧
    ((∃ e, check_inheritance_correctness
        [("swish:1.0.0", (⟨{"doc1"}, none, none, none⟩ : CodeRecord))] none "consumer-doc"
        [⟨some "swish:9.9.9", none⟩] = .error e) ∧
     (∀ j, check_inheritance_correctness
        [("swish:1.0.0", (⟨{"doc1"}, none, none, none⟩ : CodeRecord))] none "consumer-doc"
        [⟨some "swish:9.9.9", none⟩] = .error (.inheritNotFound j) →
       lookupA j [("swish:1.0.0", (⟨{"doc1"}, none, none, none⟩ : CodeRecord))] = none ∧
         j.data <:+: (SwishError.message (.inheritNotFound j)).data)) :=
  ⟨by decide, by decide, by decide,
   check_inheritance_missing_id_reports
     [("swish:1.0.0", ⟨{"doc1"}, none, none, none⟩)] none "consumer-doc"
     [⟨some "swish:9.9.9", none⟩] ⟨some "swish:9.9.9", none⟩ (by decide)
     "swish:9.9.9" (by decide) (by decide)⟩

/-! ## Claim C9: solution titles display the exercise number -/

theorem intercalate_single (x : String) : String.intercalate "." [x] = x := by
  simp [String.intercalate, String.intercalate.go]

/-- Claim C9: for a rendered solution node built by the `Solution`
directive (name `sol:<key>`, stored exercise label `ex:<key>` — the
`sol:` prefix replaced by `ex:` over the same key), the number displayed
in its title is the figure number that the host engine assigned to that
exercise — here the exercise's position `i + 1` in the document-order
exercise list, per the spec-modelled `docOrderFignumber` — and not the
solution's own figure number `m`, which is arbitrary. -/
theorem solution_title_uses_exercise_number
    (env : TitleEnv) (k sfx d fmt : String) (exIds : List String) (i : Nat)
    (m : List Nat) (parent : SolutionNodeData)
    (h1 : parent.ids = ["sol-" ++ sfx])
    (h2 : parent.names = ["sol:" ++ k])
    (h3 : parent.exercise_attr = some ("ex:" ++ k))
    (h4 : env.make_id ("ex:" ++ k) = "ex-" ++ sfx)
    (h5 : env.fignumbers "solution" ("sol-" ++ sfx) = some m)
    (h6 : env.labels ("ex:" ++ k) = some d)
    (h7 : env.toc_fignumbers d "exercise" = docOrderFignumber exIds)
    (h8 : docOrderFignumber exIds ("ex-" ++ sfx) = some [i + 1])
    (h9 : env.numfig_format "solution" = some fmt) :
    alternative_visit_title env (some "solution") parent
      = .ok ["<span class=\"caption-number\">",
             pyFormatS fmt (toString (i + 1)) ++ " ",
             "</span>"] := by
  have hslice : pySlice ("sol-" ++ sfx) 4 = sfx := pySlice_append "sol-" sfx rfl
  have hset : source_exercise_target env "solution" parent
      = .ok (d, "ex-" ++ sfx, [i + 1]) := by
    rw [source_exercise_target, if_neg (by simp), h1, h3, h2]
    simp only [strStartsWith_append, if_true, hslice]
    rw [if_pos (h4.symm)]
    simp only [h6, h7, h8]
  rw [alternative_visit_title]
  simp [h1, h5, hset, h9, intercalate_single]

/-- Witness for claim C9 at a concrete input: the exercise `ex:2.9` is
second in document order (number 2) while the solution's own figure
number is 7; the rendered title shows 2. -/
theorem solution_title_uses_exercise_number_witness :
    (⟨["sol-2-9"], ["sol:2.9"], some "ex:2.9"⟩ : SolutionNodeData).ids
      = ["sol-" ++ "2-9"] ∧
    (⟨["sol-2-9"], ["sol:2.9"], some "ex:2.9"⟩ : SolutionNodeData).names
      = ["sol:" ++ "2.9"] ∧
    (⟨["sol-2-9"], ["sol:2.9"], some "ex:2.9"⟩ : SolutionNodeData).exercise_attr
      = some ("ex:" ++ "2.9") ∧
    (TitleEnv.mk (fun s => if s = "ex:2.9" then some "ch2" else none)
      (fun _ _ => docOrderFignumber ["ex-2-1", "ex-2-9"])
      (fun c i => if c = "solution" ∧ i = "sol-2-9" then some [7] else none)
      (fun c => if c = "solution" then some "Solution %s" else none)
      (fun s => if s = "ex:2.9" then "ex-2-9" else "")).make_id ("ex:" ++ "2.9")
      = "ex-" ++ "2-9" ∧
    docOrderFignumber ["ex-2-1", "ex-2-9"] ("ex-" ++ "2-9") = some [1 + 1] ∧
    alternative_visit_title
      (TitleEnv.mk (fun s => if s = "ex:2.9" then some "ch2" else none)
        (fun _ _ => docOrderFignumber ["ex-2-1", "ex-2-9"])
        (fun c i => if c = "solution" ∧ i = "sol-2-9" then some [7] else none)
        (fun c => if c = "solution" then some "Solution %s" else none)
        (fun s => if s = "ex:2.9" then "ex-2-9" else ""))
      (some "solution") ⟨["sol-2-9"], ["sol:2.9"], some "ex:2.9"⟩
      = .ok ["<span class=\"caption-number\">",
             pyFormatS "Solution %s" (toString (1 + 1)) ++ " ",
             "</span>"] :=
  ⟨by decide, by decide, by decide, by decide, by decide,
   solution_title_uses_exercise_number
     (TitleEnv.mk (fun s => if s = "ex:2.9" then some "ch2" else none)
       (fun _ _ => docOrderFignumber ["ex-2-1", "ex-2-9"])
       (fun c i => if c = "solution" ∧ i = "sol-2-9" then some [7] else none)
       (fun c => if c = "solution" then some "Solution %s" else none)
       (fun s => if s = "ex:2.9" then "ex-2-9" else ""))
     "2.9" "2-9" "ch2" "Solution %s" ["ex-2-1", "ex-2-9"] 1 [7]
     ⟨["sol-2-9"], ["sol:2.9"], some "ex:2.9"⟩
     (by decide) (by decide) (by decide) (by decide) (by decide) (by decide)
     rfl (by decide) (by decide)⟩

end SphinxProlog
